import Mathlib

/-!
Verification of the traffic-control and coordination layer of the FEND101
repository against its natural-language specification.

The relevant source files are:
* `Semana III/ACT5 AI/throttle.py` — `TokenBucket`, `RateLimiter`,
  `ConcurrencyLimiter`, `ThrottledClient`, `crear_multiples_productos`;
* `Semana III/ACT4 AI/coordinador_async.py` — `cancel_remaining`,
  `cargar_dashboard_con_cancelacion`, `cargar_con_prioridad`;
* `Semana III/ACT10 AI/smart_session.py` — `ConnectionPoolStats.to_dict`.

Modelling conventions.  Python floats are embedded as rationals (`ℚ`);
`time.time()` is an explicit clock parameter, and — following the single
threaded cooperative scheduling model of the spec (§5) — the clock advances
only across suspension points (`await`), never inside straight-line code.
`asyncio.sleep(s)` inside `TokenBucket.acquire` advances the clock by
exactly `s`.  Exceptions are embedded as `Except` results.  The unbounded
`while True` loop of `TokenBucket.acquire` is embedded with explicit fuel;
`none` means the loop did not terminate within the given fuel.
-/

namespace FEND101

/-! ## TokenBucket (`throttle.py`, lines 137–189)

The dataclass fields are `max_tokens : int`, `tokens_per_second : float`,
`tokens : float`, `last_refill : float`; `__post_init__` sets
`tokens = max_tokens` and `last_refill = time.time()`. -/

structure TokenBucket where
  max_tokens : ℤ
  tokens_per_second : ℚ
  tokens : ℚ
  last_refill : ℚ
deriving DecidableEq, Repr

/-- Field initialisation performed by the dataclass together with
`__post_init__` (`tokens = self.max_tokens`, `last_refill = time.time()`). -/
def TokenBucket.init (max_tokens : ℤ) (tokens_per_second : ℚ) (now : ℚ) :
    TokenBucket :=
  { max_tokens := max_tokens
    tokens_per_second := tokens_per_second
    tokens := (max_tokens : ℚ)
    last_refill := now }

/-- The refill performed at the top of each iteration of `acquire`
(lines 172–178): `tokens = min(max_tokens, tokens + elapsed * tokens_per_second)`
followed by `last_refill = now`. -/
def TokenBucket.refillAt (b : TokenBucket) (now : ℚ) : TokenBucket :=
  { b with
    tokens := min (b.max_tokens : ℚ)
      (b.tokens + (now - b.last_refill) * b.tokens_per_second)
    last_refill := now }

/-- The token consumption `self.tokens -= 1.0` (line 182). -/
def TokenBucket.consume (b : TokenBucket) : TokenBucket :=
  { b with tokens := b.tokens - 1 }

/-- `TokenBucket.acquire` (lines 161–189), fuel-indexed.  `inicio` is the
value of `inicio_espera = time.time()` taken before the loop; `now` is the
clock at the top of the current iteration.  On success the returned wait is
`time.time() - inicio_espera`, taken in the same scheduling tick as `now`
(no `await` separates them).  On the sleep branch the clock advances by
exactly `sleep_time = (1 - tokens) / tokens_per_second`. -/
def TokenBucket.acquire : ℕ → TokenBucket → ℚ → ℚ → Option (ℚ × TokenBucket)
  | 0, _, _, _ => none
  | fuel + 1, b, inicio, now =>
    let b1 := b.refillAt now
    if 1 ≤ b1.tokens then
      some (now - inicio, b1.consume)
    else
      TokenBucket.acquire fuel b1 inicio
        (now + (1 - b1.tokens) / b.tokens_per_second)

/-- Modelled from the spec (§4.1), word for word, for the refinement claim
C3: on each round compute `elapsed = now - lastRefill`, set
`tokens = min(capacity, tokens + elapsed * refillRate)` and
`lastRefill = now`; if `tokens ≥ 1` decrement by one and return immediately
(wait `0` when no sleep occurred, otherwise the accumulated sleep time,
threaded here through the accumulator `acc` which starts at `0`); otherwise
compute `deficit = 1 - tokens`, `sleep = deficit / refillRate`, suspend for
`sleep` and retry the whole check. -/
def specTokenAcquire : ℕ → TokenBucket → ℚ → ℚ → Option (ℚ × TokenBucket)
  | 0, _, _, _ => none
  | fuel + 1, b, acc, now =>
    let elapsed := now - b.last_refill
    let tokens1 := min (b.max_tokens : ℚ) (b.tokens + elapsed * b.tokens_per_second)
    let b1 : TokenBucket := { b with tokens := tokens1, last_refill := now }
    if 1 ≤ tokens1 then
      some (acc, { b1 with tokens := tokens1 - 1 })
    else
      let deficit := 1 - tokens1
      let sleep := deficit / b.tokens_per_second
      specTokenAcquire fuel b1 (acc + sleep) (now + sleep)

/-- The bucket states observable at any point of any run: the freshly
constructed bucket, or the image of an observable state under one of the
two mutations `acquire` performs — the refill at the top of an iteration
(with a monotone clock, `last_refill ≤ now`) and the consumption of one
token, which the code only reaches under the guard `tokens ≥ 1`.
Interleavings of several concurrent `acquire` calls on a shared bucket are
arbitrary sequences of these two steps, so every observation point of every
schedule is covered. -/
inductive TokenBucket.Reachable : TokenBucket → Prop
  | init (m : ℤ) (r : ℚ) (t : ℚ) : TokenBucket.Reachable (TokenBucket.init m r t)
  | refillAt {b : TokenBucket} (now : ℚ) :
      TokenBucket.Reachable b → b.last_refill ≤ now →
      TokenBucket.Reachable (b.refillAt now)
  | consume {b : TokenBucket} :
      TokenBucket.Reachable b → 1 ≤ b.tokens →
      TokenBucket.Reachable b.consume

/-! ## RateLimiter (`throttle.py`, lines 192–251) -/

/-- Truncation toward zero, the behaviour of the Python builtin `int()` on
a float, used at `int(max_per_second)` in `RateLimiter.__init__`. -/
def pyInt (q : ℚ) : ℤ := if 0 ≤ q then ⌊q⌋ else -⌊-q⌋

structure RateLimiter where
  max_per_second : ℚ
  bucket : TokenBucket
  total_wait_time : ℚ
  requests_made : ℕ
deriving DecidableEq, Repr

/-- `RateLimiter.__init__` (lines 206–218): the bucket is built with
`max_tokens = int(max_per_second)` and `tokens_per_second = max_per_second`. -/
def RateLimiter.init (max_per_second : ℚ) (now : ℚ) : RateLimiter :=
  { max_per_second := max_per_second
    bucket := TokenBucket.init (pyInt max_per_second) max_per_second now
    total_wait_time := 0
    requests_made := 0 }

/-- `RateLimiter.AcquireContext.__aenter__` (lines 227–237): awaits
`bucket.acquire()` and records the wait in the running totals.
`__aexit__` (lines 239–240) performs no state change and suppresses
nothing. -/
def RateLimiter.acquireCtx (fuel : ℕ) (r : RateLimiter) (now : ℚ) :
    Option (ℚ × RateLimiter) :=
  match TokenBucket.acquire fuel r.bucket now now with
  | none => none
  | some (w, b1) =>
    some (w, { r with
      bucket := b1
      requests_made := r.requests_made + 1
      total_wait_time := r.total_wait_time + w })

/-- `RateLimiter.average_wait_time` (lines 246–251). -/
def RateLimiter.average_wait_time (r : RateLimiter) : ℚ :=
  if r.requests_made = 0 then 0 else r.total_wait_time / (r.requests_made : ℚ)

/-! ## ConcurrencyLimiter (`throttle.py`, lines 74–130)

`asyncio.Semaphore(n)` raises `ValueError` for a negative initial value, so
a constructed limiter always has a nonnegative bound; we model both the
bound and the internal semaphore counter as `ℕ`.  `_in_flight` is a plain
Python int and is modelled as `ℤ`. -/

structure ConcurrencyLimiter where
  max_concurrent : ℕ
  permits : ℕ
  in_flight : ℤ
deriving DecidableEq, Repr

/-- `ConcurrencyLimiter.__init__` (lines 88–97): the semaphore starts with
`max_concurrent` permits and `_in_flight = 0`. -/
def ConcurrencyLimiter.init (max_concurrent : ℕ) : ConcurrencyLimiter :=
  { max_concurrent := max_concurrent
    permits := max_concurrent
    in_flight := 0 }

/-- `AcquireContext.__aenter__` (lines 105–112): `semaphore.acquire()`
takes one permit (the caller suspends until one is available, so this step
only happens with `0 < permits`), then `_in_flight += 1`. -/
def ConcurrencyLimiter.aenter (l : ConcurrencyLimiter) : ConcurrencyLimiter :=
  { l with permits := l.permits - 1, in_flight := l.in_flight + 1 }

/-- `AcquireContext.__aexit__` (lines 114–121): `_in_flight -= 1` then
`semaphore.release()`; it runs on every exit of the `async with` block and
returns `False` (suppresses nothing). -/
def ConcurrencyLimiter.aexit (l : ConcurrencyLimiter) : ConcurrencyLimiter :=
  { l with permits := l.permits + 1, in_flight := l.in_flight - 1 }

/-- The states a limiter can be in at an observation point: freshly
constructed, or the image of a reachable state under the two mutations the
class performs.  `aenter` is guarded by permit availability (the semaphore
blocks otherwise); `aexit` only runs for a completed `aenter` of the scoped
`async with`, so at that point `0 < in_flight`. -/
inductive ConcurrencyLimiter.Reachable : ConcurrencyLimiter → Prop
  | init (m : ℕ) : ConcurrencyLimiter.Reachable (ConcurrencyLimiter.init m)
  | aenter {l : ConcurrencyLimiter} :
      ConcurrencyLimiter.Reachable l → 0 < l.permits →
      ConcurrencyLimiter.Reachable l.aenter
  | aexit {l : ConcurrencyLimiter} :
      ConcurrencyLimiter.Reachable l → 0 < l.in_flight →
      ConcurrencyLimiter.Reachable l.aexit

/-- One scoped acquisition `async with limiter.acquire(): body`:
`__aenter__`, then the body (which may finish normally or raise), then
`__aexit__` on either path. -/
def ConcurrencyLimiter.withAcquire {E A : Type} (l : ConcurrencyLimiter)
    (body : Except E A) : Except E A × ConcurrencyLimiter :=
  let l1 := l.aenter
  match body with
  | .ok a => (.ok a, l1.aexit)
  | .error e => (.error e, l1.aexit)

/-! ## ThrottledClient (`throttle.py`, lines 258–478) -/

/-- The exceptions `_request` can raise (lines 45–67; messages omitted:
no control flow depends on them). -/
inductive EcoErr
  | serverError
  | httpValidationError
  | timeoutErr
  | conexionErr
deriving DecidableEq, Repr

/-- The metrics dict initialised in `ThrottledClient.__init__`
(lines 297–303). -/
structure Metrics where
  total_requests : ℕ
  successful_requests : ℕ
  failed_requests : ℕ
  total_bytes_sent : ℕ
  total_bytes_received : ℕ
deriving DecidableEq, Repr

def Metrics.initZero : Metrics :=
  { total_requests := 0, successful_requests := 0, failed_requests := 0
    total_bytes_sent := 0, total_bytes_received := 0 }

/-- What the network exchange inside `_request` does: either the server
replies with a status code and a body of a given `len(str(result))`, or
`aiohttp` raises `ClientTimeout` or `ClientConnectorError`. -/
inductive HttpOutcome
  | response (status : ℕ) (bodyLen : ℕ)
  | clientTimeout
  | connectorError
deriving DecidableEq, Repr

/-- The metrics- and error-handling core of `ThrottledClient._request`
(lines 332–366), the code inside the two limiter contexts.  `jsonLen` is
`len(str(json_data))` when a JSON body is present.  Faithful points: the
`try` block increments `total_requests` and (for a JSON body)
`total_bytes_sent` before the exchange; a 5xx status raises `ServerError`
and a 4xx status raises `HTTPValidationError`, and neither is caught by the
`except` clauses (which name only the two aiohttp exception types), so
`failed_requests` is not incremented on those paths; a 204 reply returns
`None` without touching byte counters; any other 2xx/3xx reply adds the
body length to `total_bytes_received` and increments
`successful_requests`. -/
def requestCore (m : Metrics) (jsonLen : Option ℕ) (out : HttpOutcome) :
    Metrics × Except EcoErr (Option ℕ) :=
  let m1 := { m with total_requests := m.total_requests + 1 }
  let m2 := match jsonLen with
    | some n => { m1 with total_bytes_sent := m1.total_bytes_sent + n }
    | none => m1
  match out with
  | .response status bodyLen =>
    if 500 ≤ status then
      (m2, .error .serverError)
    else if 400 ≤ status then
      (m2, .error .httpValidationError)
    else if status = 204 then
      ({ m2 with successful_requests := m2.successful_requests + 1 }, .ok none)
    else
      ({ m2 with
          total_bytes_received := m2.total_bytes_received + bodyLen
          successful_requests := m2.successful_requests + 1 },
        .ok (some bodyLen))
  | .clientTimeout =>
    ({ m2 with failed_requests := m2.failed_requests + 1 }, .error .timeoutErr)
  | .connectorError =>
    ({ m2 with failed_requests := m2.failed_requests + 1 }, .error .conexionErr)

/-- The mutable state of one `ThrottledClient` (lines 277–303). -/
structure ThrottledClient where
  rate_limiter : RateLimiter
  concurrency_limiter : ConcurrencyLimiter
  metrics : Metrics
deriving DecidableEq, Repr

/-- `ThrottledClient._request` (lines 310–366): step 1 acquires a rate
token (may loop in the bucket — fuel-indexed, `none` when the bucket never
grants within the fuel), step 2 acquires a concurrency slot (`none` models
a caller that would still be suspended waiting for a slot), step 3 runs
`requestCore` inside both scopes; the concurrency scope is exited on every
path. -/
def ThrottledClient.request (fuel : ℕ) (c : ThrottledClient) (now : ℚ)
    (jsonLen : Option ℕ) (out : HttpOutcome) :
    Option (Except EcoErr (Option ℕ) × ThrottledClient) :=
  match c.rate_limiter.acquireCtx fuel now with
  | none => none
  | some (_, rl1) =>
    if 0 < c.concurrency_limiter.permits then
      let cl1 := c.concurrency_limiter.aenter
      let (m1, res) := requestCore c.metrics jsonLen out
      some (res, { rate_limiter := rl1
                   concurrency_limiter := cl1.aexit
                   metrics := m1 })
    else none

/-- The dict returned by `ThrottledClient.get_metrics` (lines 450–468). -/
structure MetricsDict where
  total_requests : ℕ
  successful_requests : ℕ
  failed_requests : ℕ
  total_bytes_sent : ℕ
  total_bytes_received : ℕ
  in_flight : ℤ
  average_wait_time : ℚ
  max_concurrent : ℕ
  max_per_second : ℚ
deriving DecidableEq, Repr

/-- `ThrottledClient.get_metrics` (lines 450–468) in state-passing form:
the method body performs only reads, so the client state component of the
result is the input state unchanged. -/
def ThrottledClient.get_metrics (c : ThrottledClient) :
    MetricsDict × ThrottledClient :=
  ({ total_requests := c.metrics.total_requests
     successful_requests := c.metrics.successful_requests
     failed_requests := c.metrics.failed_requests
     total_bytes_sent := c.metrics.total_bytes_sent
     total_bytes_received := c.metrics.total_bytes_received
     in_flight := c.concurrency_limiter.in_flight
     average_wait_time := c.rate_limiter.average_wait_time
     max_concurrent := c.concurrency_limiter.max_concurrent
     max_per_second := c.rate_limiter.max_per_second }, c)

/-! ## crear_multiples_productos (`throttle.py`, lines 485–536)

The function builds `num_productos` tasks `client.crear_producto(...)` and
runs them with `asyncio.gather(*tareas, return_exceptions=True)`, which
yields one entry per task in input position — a result value or the
exception the task raised — and never cancels a sibling when one task
fails.  We model the gather by a settlement function giving the outcome of
the i-th task; `α` is the (opaque) type of a created product dict. -/

def gatherResults {α : Type} (n : ℕ) (settle : ℕ → Except EcoErr α) :
    List (Except EcoErr α) :=
  (List.range n).map settle

/-- The check `isinstance(r, Exception)` on a gathered entry. -/
def isException {α : Type} : Except EcoErr α → Bool
  | .error _ => true
  | .ok _ => false

/-- The summary dict built by `crear_multiples_productos` (lines 522–536);
time-derived fields (`tiempo_total`, `throughput`) and the `metrics`
sub-dict are omitted here, the claim concerns the partition counts and the
returned products. -/
structure ResumenCreacion (α : Type) where
  num_productos : ℕ
  exitosos : ℕ
  errores : ℕ
  productos : List α
deriving DecidableEq, Repr

/-- `crear_multiples_productos` (lines 485–536): partition the gathered
results into non-exceptions and exceptions and report the counts; the
`productos` field keeps only the first 10 successes. -/
def crear_multiples_productos {α : Type} (num_productos : ℕ)
    (settle : ℕ → Except EcoErr α) : ResumenCreacion α :=
  let resultados := gatherResults num_productos settle
  let exitosos := resultados.filter (fun r => !isException r)
  let errores := resultados.filter (fun r => isException r)
  { num_productos := num_productos
    exitosos := exitosos.length
    errores := errores.length
    productos := (exitosos.filterMap (fun r => r.toOption)).take 10 }

/-! ## ConnectionPoolStats (`smart_session.py`, lines 20–64) -/

structure ConnectionPoolStats where
  connections_created : ℕ
  connections_reused : ℕ
  connections_closed : ℕ
  acquisition_times : List ℚ
  start_time : ℚ
deriving DecidableEq, Repr

/-- `get_average_acquisition_time` (lines 46–50). -/
def ConnectionPoolStats.get_average_acquisition_time
    (s : ConnectionPoolStats) : ℚ :=
  if s.acquisition_times = [] then 0
  else s.acquisition_times.sum / (s.acquisition_times.length : ℚ)

/-- `get_uptime` (lines 52–54): `time.time() - self._start_time`. -/
def ConnectionPoolStats.get_uptime (s : ConnectionPoolStats) (now : ℚ) : ℚ :=
  now - s.start_time

/-- The rounding performed by the Python builtin `round(x, ndigits)`:
round half to even at the given decimal position. -/
def roundHalfEven (q : ℚ) : ℤ :=
  let f := ⌊q⌋
  let r := q - (f : ℚ)
  if r < 1 / 2 then f
  else if 1 / 2 < r then f + 1
  else if f % 2 = 0 then f else f + 1

/-- Python `round(q, 2)`. -/
def pyRound2 (q : ℚ) : ℚ := (roundHalfEven (q * 100) : ℚ) / 100

/-- The dict returned by `ConnectionPoolStats.to_dict` (lines 56–64). -/
structure StatsDict where
  created : ℕ
  reused : ℕ
  closed : ℕ
  avg_acquisition_ms : ℚ
  uptime_sec : ℚ
deriving DecidableEq, Repr

/-- `ConnectionPoolStats.to_dict` (lines 56–64) in state-passing form: the
method performs only reads, so the state component of the result is the
input state unchanged.  `now` is the clock at the call; two calls with no
intervening operation share one scheduling tick and hence one `now`. -/
def ConnectionPoolStats.to_dict (s : ConnectionPoolStats) (now : ℚ) :
    StatsDict × ConnectionPoolStats :=
  ({ created := s.connections_created
     reused := s.connections_reused
     closed := s.connections_closed
     avg_acquisition_ms := pyRound2 (s.get_average_acquisition_time * 1000)
     uptime_sec := pyRound2 (s.get_uptime now) }, s)

/-! ## Coordinator (`coordinador_async.py`)

The two coordinator runs drain a set of `asyncio.Task`s with
`asyncio.wait(pendientes, return_when=FIRST_COMPLETED)`: each round yields
a non-deterministic non-empty batch `done` of settled tasks and the new
pending set.  We embed a run as a function of its schedule — the list of
batches in the order the waits returned them, each batch listing the
settled endpoints with their outcomes in the (arbitrary) set-iteration
order of the `for tarea in done` loop.  `α` is the opaque payload type of
a successful response. -/

inductive Endpoint
  | productos
  | categorias
  | perfil
  | notificaciones
deriving DecidableEq, Repr

instance : Fintype Endpoint :=
  ⟨⟨{.productos, .categorias, .perfil, .notificaciones}, by decide⟩,
    fun e => by cases e <;> decide⟩

/-- A task handle as `cancel_remaining` sees it: `tarea.done()` and whether
`tarea.cancel()` has been requested. -/
structure TaskHandle where
  endpoint : Endpoint
  isDone : Bool
  cancelRequested : Bool
deriving DecidableEq, Repr

/-- `cancel_remaining` (`coordinador_async.py`, lines 267–287): for every
task of the set that is not done, request cancellation and count it. -/
def cancel_remaining : List TaskHandle → List TaskHandle × ℕ
  | [] => ([], 0)
  | t :: ts =>
    let (ts1, n) := cancel_remaining ts
    if t.isDone then (t :: ts1, n)
    else ({ t with cancelRequested := true } :: ts1, n + 1)

/-! ### cargar_dashboard_con_cancelacion (`coordinador_async.py`, lines 290–405) -/

/-- How one awaited task of the cascade run settles, the cases of the
`try` at lines 353–395: a result, a `NoAutorizado` (401), a surfacing
`asyncio.CancelledError`, or any other exception. -/
inductive OutcomeC (α : Type)
  | ok (d : α)
  | noAutorizado (msg : String)
  | cancelledSignal
  | otherExc (msg : String)
deriving DecidableEq, Repr

/-- An entry of the `errores` list of the cascade run. -/
structure ErrRecord where
  endpoint : Endpoint
  error : String
  cancelada : Bool
deriving DecidableEq, Repr

/-- The accumulator variables of `cargar_dashboard_con_cancelacion`
(lines 332–338). -/
structure EstadoDashboard (α : Type) where
  datos : Endpoint → Option α
  errores : List ErrRecord
  canceladas_por_auth : Bool

def EstadoDashboard.inicial (α : Type) : EstadoDashboard α :=
  { datos := fun _ => none, errores := [], canceladas_por_auth := false }

/-- The `for tarea in done` loop of the cascade run (lines 350–395).
`pendientes` is the pending set after the `asyncio.wait` of this round.
On `NoAutorizado` the settled task is recorded with `cancelada = False`;
then, only `if pendientes:` is non-empty, `cancel_remaining` is invoked,
`canceladas_por_auth` is set, one `cancelada = True` record is appended per
pending task and the loop `break`s (the remaining `done` entries of this
batch are not processed).  A surfacing `asyncio.CancelledError` is caught
and converted to a `cancelada = True` record — it never escapes to the
caller.  Any other exception is recorded with `cancelada = False` and the
loop continues. -/
def procesarDone {α : Type} :
    List (Endpoint × OutcomeC α) → List Endpoint → EstadoDashboard α →
    EstadoDashboard α
  | [], _, st => st
  | (ep, out) :: resto, pendientes, st =>
    match out with
    | .ok d =>
      procesarDone resto pendientes
        { st with datos := Function.update st.datos ep (some d) }
    | .noAutorizado msg =>
      let st1 :=
        { st with errores := st.errores ++ [⟨ep, msg, false⟩] }
      if pendientes = [] then procesarDone resto pendientes st1
      else
        { st1 with
          canceladas_por_auth := true
          errores := st1.errores ++ pendientes.map
            (fun p => ⟨p, "Cancelada por falta de autenticacion", true⟩) }
    | .cancelledSignal =>
      procesarDone resto pendientes
        { st with errores := st.errores ++ [⟨ep, "Tarea cancelada", true⟩] }
    | .otherExc msg =>
      procesarDone resto pendientes
        { st with errores := st.errores ++ [⟨ep, msg, false⟩] }

/-- The `while pendientes` drain loop of the cascade run (lines 343–399):
each round `asyncio.wait` hands back a batch of settled tasks and the
shrunken pending set; the batch is processed by `procesarDone`; if the
fatal branch fired, `canceladas_por_auth` is `True` and the outer loop
`break`s, leaving the rest of the schedule untouched. -/
def cargarDashboard {α : Type} :
    List (List (Endpoint × OutcomeC α)) → List Endpoint → EstadoDashboard α →
    EstadoDashboard α
  | [], _, st => st
  | done :: resto, pendientes, st =>
    let pend1 := pendientes.filter (fun p => !(done.any (fun ev => ev.1 = p)))
    let st1 := procesarDone done pend1 st
    if st1.canceladas_por_auth then st1
    else cargarDashboard resto pend1 st1

/-- The three tasks launched by `cargar_dashboard_con_cancelacion`
(lines 315–330). -/
def pendientesDashboard : List Endpoint :=
  [.productos, .categorias, .perfil]

/-- The fatal predicate of the cascade run: the `except NoAutorizado`
clause at line 357 matches exactly the 401 outcome. -/
def esFatal {α : Type} : OutcomeC α → Bool
  | .noAutorizado _ => true
  | _ => false

/-- The pending set left after a sequence of `asyncio.wait` rounds, each
removing its batch of settled tasks — the same filter the drain loop
performs per round. -/
def pendAfterBatches {α : Type} :
    List (List (Endpoint × OutcomeC α)) → List Endpoint → List Endpoint
  | [], pend => pend
  | batch :: resto, pend =>
    pendAfterBatches resto
      (pend.filter (fun p => !(batch.any (fun ev => ev.1 = p))))

/-- `cargar_dashboard_con_cancelacion` (lines 290–405) as a function of
its settlement schedule. -/
def cargar_dashboard_con_cancelacion {α : Type}
    (schedule : List (List (Endpoint × OutcomeC α))) : EstadoDashboard α :=
  cargarDashboard schedule pendientesDashboard (EstadoDashboard.inicial α)

/-! ### cargar_con_prioridad (`coordinador_async.py`, lines 412–534)

The inner `for tarea in done` loop of this run has no `break`, so the
processing is the same uniform per-event fold whatever the batch
boundaries; the schedule is therefore embedded as the flat list of settled
events in processing order.  Each event carries the clock value at which
it is processed (`time.time()` of that tick). -/

/-- An event of the priority run: which task settled, its outcome (a value
or the exception caught by the `except Exception` at line 522), and the
clock at processing. -/
structure EventoP (α : Type) where
  endpoint : Endpoint
  resultado : Except String α
  t : ℚ

/-- `tareas_criticas = {tarea_productos, tarea_perfil}` (line 483). -/
def tareas_criticas : Finset Endpoint := {.productos, .perfil}

/-- The accumulator variables of `cargar_con_prioridad` (lines 484–494). -/
structure EstadoPrioridad (α : Type) where
  criticas_completadas : Finset Endpoint
  datos : Endpoint → Option α
  errores : List (Endpoint × String)
  orden_llegada : List Endpoint
  tiempo_dashboard_parcial : Option ℚ

def EstadoPrioridad.inicial (α : Type) : EstadoPrioridad α :=
  { criticas_completadas := ∅
    datos := fun _ => none
    errores := []
    orden_llegada := []
    tiempo_dashboard_parcial := none }

/-- Processing of one settled task (lines 506–526): the name is appended
to `orden_llegada`; on success the datum is stored and, if the task is
critical, it is added to `criticas_completadas`; when that set equals
`tareas_criticas` and `tiempo_dashboard_parcial is None`, the timestamp
`time.time() - inicio` is recorded.  On an exception only an error record
is appended — a failed critical task is never added to
`criticas_completadas`. -/
def pasoPrioridad {α : Type} (inicio : ℚ) (st : EstadoPrioridad α)
    (ev : EventoP α) : EstadoPrioridad α :=
  let st0 := { st with orden_llegada := st.orden_llegada ++ [ev.endpoint] }
  match ev.resultado with
  | .ok d =>
    let st1 :=
      { st0 with datos := Function.update st0.datos ev.endpoint (some d) }
    if ev.endpoint ∈ tareas_criticas then
      let cc := insert ev.endpoint st1.criticas_completadas
      { st1 with
        criticas_completadas := cc
        tiempo_dashboard_parcial :=
          if cc = tareas_criticas ∧ st1.tiempo_dashboard_parcial = none then
            some (ev.t - inicio)
          else st1.tiempo_dashboard_parcial }
    else st1
  | .error msg =>
    { st0 with errores := st0.errores ++ [(ev.endpoint, msg)] }

/-- The drain loop of `cargar_con_prioridad` (lines 499–526) over the flat
event schedule. -/
def correrPrioridad {α : Type} (inicio : ℚ) (evs : List (EventoP α))
    (st : EstadoPrioridad α) : EstadoPrioridad α :=
  evs.foldl (pasoPrioridad inicio) st

/-- The dict returned by `cargar_con_prioridad` (lines 528–534);
`criticas_completas` is `len(criticas_completadas) == len(tareas_criticas)`. -/
structure ResultadoPrioridad (α : Type) where
  criticas_completas : Bool
  tiempo_dashboard_parcial : Option ℚ
  datos : Endpoint → Option α
  errores : List (Endpoint × String)
  orden_llegada : List Endpoint

/-- `cargar_con_prioridad` (lines 412–534) as a function of its settlement
schedule; `inicio` is the `time.time()` taken at line 451. -/
def cargar_con_prioridad {α : Type} (inicio : ℚ) (evs : List (EventoP α)) :
    ResultadoPrioridad α :=
  let R := correrPrioridad inicio evs (EstadoPrioridad.inicial α)
  { criticas_completas :=
      decide (R.criticas_completadas.card = tareas_criticas.card)
    tiempo_dashboard_parcial := R.tiempo_dashboard_parcial
    datos := R.datos
    errores := R.errores
    orden_llegada := R.orden_llegada }

/-- Whether an awaited task produced a value (the `try` branch at
line 511) rather than raising. -/
def esOk {α : Type} : Except String α → Bool
  | .ok _ => true
  | .error _ => false

/-- The schedule contains a successful settlement of the given task. -/
def settledOk {α : Type} (evs : List (EventoP α)) (ep : Endpoint) : Prop :=
  ∃ ev ∈ evs, ev.endpoint = ep ∧ esOk ev.resultado = true

instance {α : Type} (evs : List (EventoP α)) (ep : Endpoint) :
    Decidable (settledOk evs ep) := by
  unfold settledOk
  infer_instance

/-! ## Theorems -/

/-- The source `acquire` run from wait-start `t0` with current clock `now`
agrees with the spec algorithm run with wait accumulator `now - t0`. -/
lemma acquire_eq_specTokenAcquire :
    ∀ (fuel : ℕ) (b : TokenBucket) (t0 now : ℚ),
      TokenBucket.acquire fuel b t0 now = specTokenAcquire fuel b (now - t0) now := by
  intro fuel
  induction fuel with
  | zero => intro b t0 now; rfl
  | succ n ih =>
    intro b t0 now
    show (if 1 ≤ (b.refillAt now).tokens then
            some (now - t0, (b.refillAt now).consume)
          else
            TokenBucket.acquire n (b.refillAt now) t0
              (now + (1 - (b.refillAt now).tokens) / b.tokens_per_second)) = _
    by_cases h : 1 ≤ (b.refillAt now).tokens
    · simp only [specTokenAcquire, TokenBucket.refillAt, TokenBucket.consume] at h ⊢
      rw [if_pos h, if_pos h]
    · simp only [specTokenAcquire, TokenBucket.refillAt, TokenBucket.consume] at h ⊢
      rw [if_neg h, if_neg h, ih]
      have :
          now + (1 - min (↑b.max_tokens) (b.tokens + (now - b.last_refill) * b.tokens_per_second)) / b.tokens_per_second - t0
            = now - t0 + (1 - min (↑b.max_tokens) (b.tokens + (now - b.last_refill) * b.tokens_per_second)) / b.tokens_per_second := by
        ring
      rw [this]

/-- C3: `TokenBucket.acquire` follows exactly the specified algorithm: each
iteration refills `tokens` to `min(capacity, tokens + elapsed * refillRate)`
and sets `lastRefill = now`; if `tokens ≥ 1` it decrements by one and
returns — with wait `0` when no sleep occurred — and otherwise it sleeps
`deficit / refillRate` with `deficit = 1 - tokens` and retries the whole
refill-check sequence in a loop.  Stated as a refinement: the source
function equals the algorithm transcribed from the words of the spec
(`specTokenAcquire`), for every bucket, start time and fuel; and on a first
iteration whose refill yields at least one token the call returns
immediately with wait exactly `0`. -/
theorem c3_acquire_follows_spec_algorithm :
    (∀ (fuel : ℕ) (b : TokenBucket) (t0 : ℚ),
        TokenBucket.acquire fuel b t0 t0 = specTokenAcquire fuel b 0 t0) ∧
    (∀ (fuel : ℕ) (b : TokenBucket) (t0 : ℚ),
        1 ≤ (b.refillAt t0).tokens →
        TokenBucket.acquire (fuel + 1) b t0 t0 = some (0, (b.refillAt t0).consume)) := by
  constructor
  · intro fuel b t0
    have h := acquire_eq_specTokenAcquire fuel b t0 t0
    rwa [sub_self] at h
  · intro fuel b t0 h
    show (if 1 ≤ (b.refillAt t0).tokens then
            some (t0 - t0, (b.refillAt t0).consume)
          else _) = _
    rw [if_pos h, sub_self]

/-- Closed instance of the hypothesis-bearing part of C3: a bucket of
capacity 5 and rate 5 grants a token on the first iteration with wait 0. -/
theorem c3_witness :
    TokenBucket.acquire 1 (TokenBucket.init 5 5 0) 0 0
      = some (0, ((TokenBucket.init 5 5 0).refillAt 0).consume) :=
  c3_acquire_follows_spec_algorithm.2 0 (TokenBucket.init 5 5 0) 0
    (by norm_num [TokenBucket.init, TokenBucket.refillAt])

/-- A bucket whose capacity is not positive never grants a token: the
refill pins `tokens` at or below `0`, so the guard `tokens ≥ 1` never
holds and the loop runs until the fuel is exhausted. -/
lemma acquire_none_of_max_nonpos :
    ∀ (fuel : ℕ) (b : TokenBucket) (t0 now : ℚ),
      b.max_tokens ≤ 0 → TokenBucket.acquire fuel b t0 now = none := by
  intro fuel
  induction fuel with
  | zero => intro b t0 now _; rfl
  | succ n ih =>
    intro b t0 now hmax
    have hle : (b.refillAt now).tokens ≤ (b.max_tokens : ℚ) := by
      simp only [TokenBucket.refillAt]
      exact min_le_left _ _
    have hlt : ¬ 1 ≤ (b.refillAt now).tokens := by
      have : (b.max_tokens : ℚ) ≤ 0 := by exact_mod_cast hmax
      intro hc
      linarith
    show (if 1 ≤ (b.refillAt now).tokens then _ else
            TokenBucket.acquire n (b.refillAt now) t0 _) = none
    rw [if_neg hlt]
    exact ih _ _ _ hmax

/-- C10: `RateLimiter.__init__` truncates the rate with
`int(max_per_second)`, so for every rate strictly between 0 and 1 the
bucket is constructed with capacity 0 and initial token count 0; the
min-with-capacity refill pins the count at 0, `acquire` never returns
within any fuel bound (the loop runs forever), and consequently no
throttled request built on that limiter ever executes. -/
theorem c10_fractional_rate_never_grants :
    ∀ (q t0 : ℚ), 0 < q → q < 1 →
      (RateLimiter.init q t0).bucket.max_tokens = 0 ∧
      (RateLimiter.init q t0).bucket.tokens = 0 ∧
      (∀ (fuel : ℕ) (inicio now : ℚ),
        TokenBucket.acquire fuel (RateLimiter.init q t0).bucket inicio now = none) ∧
      (∀ (fuel : ℕ) (cl : ConcurrencyLimiter) (m : Metrics) (now : ℚ)
          (jsonLen : Option ℕ) (out : HttpOutcome),
        ThrottledClient.request fuel
          ⟨RateLimiter.init q t0, cl, m⟩ now jsonLen out = none) := by
  intro q t0 hq0 hq1
  have hmax : (RateLimiter.init q t0).bucket.max_tokens = 0 := by
    show pyInt q = 0
    rw [pyInt, if_pos hq0.le]
    rw [Int.floor_eq_zero_iff]
    exact ⟨hq0.le, hq1⟩
  refine ⟨hmax, ?_, ?_, ?_⟩
  · show ((pyInt q : ℤ) : ℚ) = 0
    rw [show pyInt q = 0 from hmax]
    norm_num
  · intro fuel inicio now
    exact acquire_none_of_max_nonpos fuel _ inicio now (le_of_eq hmax)
  · intro fuel cl m now jsonLen out
    show (match RateLimiter.acquireCtx fuel (RateLimiter.init q t0) now with
          | none => none
          | some (_, rl1) => _) = none
    have : RateLimiter.acquireCtx fuel (RateLimiter.init q t0) now = none := by
      rw [RateLimiter.acquireCtx,
        acquire_none_of_max_nonpos fuel _ now now (le_of_eq hmax)]
    rw [this]

/-- Closed instance of C10 at rate `1/2`: the constructed bucket has
capacity 0 and a request through it never executes. -/
theorem c10_witness :
    (RateLimiter.init (1/2) 0).bucket.max_tokens = 0 ∧
    TokenBucket.acquire 3 (RateLimiter.init (1/2) 0).bucket 0 0 = none ∧
    ThrottledClient.request 2
      ⟨RateLimiter.init (1/2) 0, ConcurrencyLimiter.init 3, Metrics.initZero⟩
      0 none (.response 200 0) = none := by
  have h := c10_fractional_rate_never_grants (1/2) 0 (by norm_num) (by norm_num)
  exact ⟨h.1, h.2.2.1 3 0 0, h.2.2.2 2 _ _ 0 none _⟩

/-- C9: reading the metrics snapshot twice with no intervening operations
yields identical snapshots.  Both cited readers are pure projections: in
state-passing form the state component of the result is the input state,
and the snapshot of a second consecutive read equals the first — including
the time-derived `uptime_sec` field of `ConnectionPoolStats.to_dict`,
because consecutive reads with no intervening operation share one
scheduling tick and hence one clock value under the cooperative model. -/
theorem c9_metrics_snapshot_idempotent :
    (∀ c : ThrottledClient,
      (ThrottledClient.get_metrics c).2 = c ∧
      (ThrottledClient.get_metrics (ThrottledClient.get_metrics c).2).1
        = (ThrottledClient.get_metrics c).1) ∧
    (∀ (s : ConnectionPoolStats) (now : ℚ),
      (s.to_dict now).2 = s ∧
      (((s.to_dict now).2).to_dict now).1 = (s.to_dict now).1) := by
  exact ⟨fun c => ⟨rfl, rfl⟩, fun s now => ⟨rfl, rfl⟩⟩

/-- C4: for every token bucket with nonnegative capacity and refill rate,
`0 ≤ tokens ≤ capacity` holds at every observation point: after
construction and after each of the two mutations an `acquire` iteration
performs (refill under a monotone clock, and consumption guarded by
`tokens ≥ 1`).  The second conjunct closes the loop back to the source
function: the bucket returned by a successful `acquire` call started from
an observable state is again an observable state. -/
theorem c4_tokens_between_zero_and_capacity :
    (∀ b : TokenBucket, b.Reachable →
      0 ≤ b.max_tokens → 0 ≤ b.tokens_per_second →
      0 ≤ b.tokens ∧ b.tokens ≤ (b.max_tokens : ℚ)) ∧
    (∀ (fuel : ℕ) (b : TokenBucket) (t0 now w : ℚ) (b1 : TokenBucket),
      b.Reachable → 0 ≤ b.tokens_per_second → b.last_refill ≤ now →
      TokenBucket.acquire fuel b t0 now = some (w, b1) → b1.Reachable) := by
  constructor
  · intro b hb
    induction hb with
    | init m r t =>
      intro hm _
      simp only [TokenBucket.init] at hm ⊢
      exact ⟨by exact_mod_cast hm, le_refl _⟩
    | @refillAt b now hb hle ih =>
      intro hm hr
      simp only [TokenBucket.refillAt] at hm hr ⊢
      obtain ⟨h0, _⟩ := ih hm hr
      constructor
      · apply le_min
        · exact_mod_cast hm
        · have hmul : (0 : ℚ) ≤ (now - b.last_refill) * b.tokens_per_second :=
            mul_nonneg (by linarith) hr
          linarith
      · exact min_le_left _ _
    | @consume b hb htok ih =>
      intro hm hr
      simp only [TokenBucket.consume] at hm hr ⊢
      obtain ⟨h0, h1⟩ := ih hm hr
      constructor <;> linarith
  · intro fuel
    induction fuel with
    | zero => intro b t0 now w b1 _ _ _ h; exact Option.noConfusion h
    | succ n ih =>
      intro b t0 now w b1 hb hr hle h
      rw [show TokenBucket.acquire (n + 1) b t0 now =
            (if 1 ≤ (b.refillAt now).tokens then
              some (now - t0, (b.refillAt now).consume)
            else
              TokenBucket.acquire n (b.refillAt now) t0
                (now + (1 - (b.refillAt now).tokens) / b.tokens_per_second))
          from rfl] at h
      by_cases hc : 1 ≤ (b.refillAt now).tokens
      · rw [if_pos hc] at h
        have h2 : (b.refillAt now).consume = b1 :=
          congrArg Prod.snd (Option.some.inj h)
        exact h2 ▸ TokenBucket.Reachable.consume
          (TokenBucket.Reachable.refillAt now hb hle) hc
      · rw [if_neg hc] at h
        have hreach : (b.refillAt now).Reachable :=
          TokenBucket.Reachable.refillAt now hb hle
        have hrate : 0 ≤ (b.refillAt now).tokens_per_second := hr
        have hmono : (b.refillAt now).last_refill ≤
            now + (1 - (b.refillAt now).tokens) / b.tokens_per_second := by
          have h1 : (b.refillAt now).last_refill = now := rfl
          have h2 : (0 : ℚ) ≤ (1 - (b.refillAt now).tokens) / b.tokens_per_second :=
            div_nonneg (by linarith [lt_of_not_le hc]) hr
          linarith
        exact ih _ _ _ _ _ hreach hrate hmono h

/-- Closed instance of C4: the freshly constructed bucket of capacity 5 and
rate 5 satisfies the invariant. -/
theorem c4_witness :
    0 ≤ (TokenBucket.init 5 5 0).tokens ∧
    (TokenBucket.init 5 5 0).tokens ≤ ((TokenBucket.init 5 5 0).max_tokens : ℚ) :=
  c4_tokens_between_zero_and_capacity.1 (TokenBucket.init 5 5 0)
    (TokenBucket.Reachable.init 5 5 0) (by norm_num [TokenBucket.init])
    (by norm_num [TokenBucket.init])

/-- Invariant of observable limiter states: the in-flight counter and the
remaining permits always partition the configured bound, and the counter
is nonnegative. -/
lemma concurrency_reach_inv :
    ∀ l : ConcurrencyLimiter, l.Reachable →
      l.in_flight + (l.permits : ℤ) = (l.max_concurrent : ℤ) ∧ 0 ≤ l.in_flight := by
  intro l hl
  induction hl with
  | init m => simp [ConcurrencyLimiter.init]
  | aenter hl hp ih =>
    obtain ⟨h1, h2⟩ := ih
    simp only [ConcurrencyLimiter.aenter]
    constructor <;> omega
  | aexit hl hp ih =>
    obtain ⟨h1, h2⟩ := ih
    simp only [ConcurrencyLimiter.aexit]
    constructor <;> omega

/-- C5: for every observable `ConcurrencyLimiter` state,
`0 ≤ inFlight ≤ maxConcurrent`; the counter is coupled to the semaphore —
`inFlight + permits = maxConcurrent`, so the counter is incremented only
by consuming an available permit — and one scoped acquisition restores the
state on every exit path: whether the body finished normally or raised,
the counter is decremented and the permit released, and the body outcome
passes through unchanged. -/
theorem c5_in_flight_between_zero_and_max :
    (∀ l : ConcurrencyLimiter, l.Reachable →
      0 ≤ l.in_flight ∧ l.in_flight ≤ (l.max_concurrent : ℤ) ∧
      l.in_flight + (l.permits : ℤ) = (l.max_concurrent : ℤ)) ∧
    (∀ (E A : Type) (l : ConcurrencyLimiter) (body : Except E A),
      (l.withAcquire body).2.in_flight = l.in_flight ∧
      (0 < l.permits → (l.withAcquire body).2 = l) ∧
      (l.withAcquire body).1 = body) := by
  constructor
  · intro l hl
    obtain ⟨h1, h2⟩ := concurrency_reach_inv l hl
    exact ⟨h2, by omega, h1⟩
  · intro E A l body
    have hfst : (l.withAcquire body).1 = body := by
      cases body <;> rfl
    have hsnd : (l.withAcquire body).2 = l.aenter.aexit := by
      cases body <;> rfl
    refine ⟨?_, ?_, hfst⟩
    · rw [hsnd]
      show l.in_flight + 1 - 1 = l.in_flight
      omega
    · intro hp
      rw [hsnd]
      show ConcurrencyLimiter.mk l.max_concurrent (l.permits - 1 + 1)
        (l.in_flight + 1 - 1) = l
      have : l.permits - 1 + 1 = l.permits := by omega
      rw [this]
      have : l.in_flight + 1 - 1 = l.in_flight := by omega
      rw [this]

/-- Closed instance of C5: the fresh limiter with bound 3 satisfies the
invariant, and a scoped acquisition whose body raises still restores the
state. -/
theorem c5_witness :
    (0 ≤ (ConcurrencyLimiter.init 3).in_flight ∧
      (ConcurrencyLimiter.init 3).in_flight ≤ ((ConcurrencyLimiter.init 3).max_concurrent : ℤ) ∧
      (ConcurrencyLimiter.init 3).in_flight + ((ConcurrencyLimiter.init 3).permits : ℤ)
        = ((ConcurrencyLimiter.init 3).max_concurrent : ℤ)) ∧
    ((ConcurrencyLimiter.init 3).withAcquire
        (Except.error () : Except Unit Unit)).2 = ConcurrencyLimiter.init 3 :=
  ⟨c5_in_flight_between_zero_and_max.1 (ConcurrencyLimiter.init 3)
      (ConcurrencyLimiter.Reachable.init 3),
    (c5_in_flight_between_zero_and_max.2 Unit Unit (ConcurrencyLimiter.init 3)
      (Except.error ())).2.1 (by decide)⟩

/-- The two filters of `crear_multiples_productos` partition the gathered
results. -/
lemma length_filter_not_add_length_filter {β : Type} (p : β → Bool) :
    ∀ l : List β,
      (l.filter (fun a => !p a)).length + (l.filter p).length = l.length := by
  intro l
  induction l with
  | nil => rfl
  | cons a t ih =>
    cases h : p a <;> simp [List.filter_cons, h] <;> omega

/-- C8: fanning out `n` operations through the throttled executor with `k`
of them failing returns exactly `n - k` succeeded results and `k` failures
(`k` being the number of gathered entries that are exceptions), the two
counts partition `n`, and every operation runs to its own settlement: the
i-th gathered entry is exactly the i-th settlement, unaffected by the
outcomes of its siblings (`asyncio.gather(..., return_exceptions=True)`
never cancels a sibling on failure). -/
theorem c8_fanout_isolates_failures :
    ∀ {α : Type} (n : ℕ) (settle : ℕ → Except EcoErr α),
      (crear_multiples_productos n settle).exitosos
          + (crear_multiples_productos n settle).errores = n ∧
      (crear_multiples_productos n settle).errores
          = (gatherResults n settle).countP (fun r => isException r) ∧
      (crear_multiples_productos n settle).exitosos
          = n - (gatherResults n settle).countP (fun r => isException r) ∧
      (∀ i : Fin n, (gatherResults n settle).get? i = some (settle i)) := by
  intro α n settle
  have hlen : (gatherResults n settle).length = n := by
    simp [gatherResults]
  have hpart :
      ((gatherResults n settle).filter (fun r => !isException r)).length
        + ((gatherResults n settle).filter (fun r => isException r)).length
        = n := by
    rw [length_filter_not_add_length_filter (fun r => isException r)
      (gatherResults n settle), hlen]
  have hcount :
      ((gatherResults n settle).filter (fun r => isException r)).length
        = (gatherResults n settle).countP (fun r => isException r) := by
    rw [List.countP_eq_length_filter]
  have hex : (crear_multiples_productos n settle).exitosos
      = ((gatherResults n settle).filter (fun r => !isException r)).length := rfl
  have herr : (crear_multiples_productos n settle).errores
      = ((gatherResults n settle).filter (fun r => isException r)).length := rfl
  refine ⟨by rw [hex, herr]; exact hpart, by rw [herr, hcount], ?_, ?_⟩
  · rw [hex, ← hcount]
    omega
  · intro i
    rw [gatherResults, List.get?_map, List.get?_range i.isLt]
    rfl

/-- C6 counterexample: a request whose exchange returns HTTP 500 is a
failing call (it raises `ServerError`), yet `failed_requests` is not
incremented — the `except` clauses of `_request` name only
`aiohttp.ClientTimeout` and `aiohttp.ClientConnectorError`, so the 4xx/5xx
exceptions raised inside the `try` bypass the failure counter.  This
refutes the claim that every failing call, for every kind of failure in
the taxonomy, increments `failed_requests`. -/
theorem c6_counterexample :
    (requestCore Metrics.initZero none (.response 500 0)).1.total_requests = 1 ∧
    (requestCore Metrics.initZero none (.response 500 0)).1.failed_requests = 0 ∧
    (requestCore Metrics.initZero none (.response 500 0)).2
      = .error .serverError := by
  refine ⟨rfl, rfl, rfl⟩

/-- C6 amended: every call that reaches execution increments
`total_requests`; every call that succeeds increments
`successful_requests` and the byte counters for the payloads present (the
sent counter whenever a JSON body is present, the received counter for
every non-204 success), and never touches `failed_requests`; but
`failed_requests` is incremented only for the timeout and connection-error
failures — a call failing with an HTTP status (client 4xx or server 5xx)
raises without incrementing either `failed_requests` or
`successful_requests`. -/
theorem c6_metrics_on_request_paths :
    ∀ (m : Metrics) (jsonLen : Option ℕ) (out : HttpOutcome),
      (requestCore m jsonLen out).1.total_requests = m.total_requests + 1 ∧
      (∀ v, (requestCore m jsonLen out).2 = .ok v →
        (requestCore m jsonLen out).1.successful_requests
            = m.successful_requests + 1 ∧
        (requestCore m jsonLen out).1.failed_requests = m.failed_requests) ∧
      (∀ k, jsonLen = some k →
        (requestCore m jsonLen out).1.total_bytes_sent
          = m.total_bytes_sent + k) ∧
      (∀ s bl, out = .response s bl → s < 400 → s ≠ 204 →
        (requestCore m jsonLen out).1.total_bytes_received
          = m.total_bytes_received + bl) ∧
      ((out = .clientTimeout ∨ out = .connectorError) →
        (requestCore m jsonLen out).1.failed_requests
          = m.failed_requests + 1) ∧
      (∀ s bl, out = .response s bl → 400 ≤ s →
        (requestCore m jsonLen out).1.failed_requests = m.failed_requests ∧
        (requestCore m jsonLen out).1.successful_requests
          = m.successful_requests) ∧
      (∀ s bl, out = .response s bl → 500 ≤ s →
        (requestCore m jsonLen out).2 = .error .serverError) ∧
      (∀ s bl, out = .response s bl → 400 ≤ s → s < 500 →
        (requestCore m jsonLen out).2 = .error .httpValidationError) := by
  intro m jsonLen out
  cases out with
  | response s bl =>
    rcases jsonLen with - | k <;>
      (simp only [requestCore]
       split_ifs with h5 h4 h2 <;>
        (refine ⟨rfl, ?_, ?_, ?_, ?_, ?_, ?_, ?_⟩ <;> simp_all <;> omega))
  | clientTimeout =>
    rcases jsonLen with - | k <;>
      (refine ⟨rfl, ?_, ?_, ?_, ?_, ?_, ?_, ?_⟩ <;> simp_all [requestCore])
  | connectorError =>
    rcases jsonLen with - | k <;>
      (refine ⟨rfl, ?_, ?_, ?_, ?_, ?_, ?_, ?_⟩ <;> simp_all [requestCore])

/-- Closed instance of the hypothesis-bearing parts of C6 (amended): a
timeout failure with a JSON body of length 3 increments the failure
counter and the sent-byte counter. -/
theorem c6_witness :
    (requestCore Metrics.initZero (some 3) .clientTimeout).1.failed_requests
        = Metrics.initZero.failed_requests + 1 ∧
    (requestCore Metrics.initZero (some 3) .clientTimeout).1.total_bytes_sent
        = Metrics.initZero.total_bytes_sent + 3 :=
  ⟨(c6_metrics_on_request_paths Metrics.initZero (some 3)
      .clientTimeout).2.2.2.2.1 (Or.inl rfl),
    (c6_metrics_on_request_paths Metrics.initZero (some 3)
      .clientTimeout).2.2.1 3 rfl⟩

/-- C7: a rate token consumed before executing an operation is never
refunded when the operation fails: the bucket component of the state after
`_request` is a function of the pre-state and the fuel/clock schedule
only — identical whatever the exchange outcome, success or any failure —
and it equals the bucket produced by the rate acquisition of step 1: no
later write restores tokens. -/
theorem c7_no_token_refund_on_failure :
    (∀ (fuel : ℕ) (c : ThrottledClient) (now : ℚ) (jsonLen : Option ℕ)
        (out1 out2 : HttpOutcome),
      Option.map (fun p => p.2.rate_limiter.bucket)
          (ThrottledClient.request fuel c now jsonLen out1)
        = Option.map (fun p => p.2.rate_limiter.bucket)
          (ThrottledClient.request fuel c now jsonLen out2)) ∧
    (∀ (fuel : ℕ) (c : ThrottledClient) (now : ℚ) (jsonLen : Option ℕ)
        (out : HttpOutcome) (w : ℚ) (rl1 : RateLimiter)
        (res : Except EcoErr (Option ℕ)) (c1 : ThrottledClient),
      c.rate_limiter.acquireCtx fuel now = some (w, rl1) →
      ThrottledClient.request fuel c now jsonLen out = some (res, c1) →
      c1.rate_limiter.bucket = rl1.bucket) := by
  constructor
  · intro fuel c now jsonLen out1 out2
    rw [ThrottledClient.request, ThrottledClient.request]
    rcases h : c.rate_limiter.acquireCtx fuel now with - | ⟨w, rl1⟩
    · rfl
    · by_cases hp : 0 < c.concurrency_limiter.permits
      · simp [hp]
      · simp [hp]
  · intro fuel c now jsonLen out w rl1 res c1 hacq hreq
    rw [ThrottledClient.request, hacq] at hreq
    by_cases hp : 0 < c.concurrency_limiter.permits
    · simp only [hp, if_true] at hreq
      injection hreq with hpair
      injection hpair with hres hc1
      rw [← hc1]
    · simp only [hp, if_false] at hreq
      exact Option.noConfusion hreq

/-- Closed instance of C7: a concrete client whose request times out ends
with the same bucket the step-1 acquisition produced. -/
theorem c7_witness :
    (ThrottledClient.mk (RateLimiter.mk 5 ⟨5, 5, 4, 0⟩ 0 1)
        (⟨3, 3, 0⟩ : ConcurrencyLimiter)
        (Metrics.mk 1 0 1 0 0)).rate_limiter.bucket
      = (RateLimiter.mk 5 ⟨5, 5, 4, 0⟩ 0 1).bucket :=
  c7_no_token_refund_on_failure.2 1
    ⟨RateLimiter.mk 5 ⟨5, 5, 5, 0⟩ 0 0, ConcurrencyLimiter.init 3,
      Metrics.initZero⟩
    0 none .clientTimeout 0 (RateLimiter.mk 5 ⟨5, 5, 4, 0⟩ 0 1)
    (.error .timeoutErr)
    (ThrottledClient.mk (RateLimiter.mk 5 ⟨5, 5, 4, 0⟩ 0 1)
      (⟨3, 3, 0⟩ : ConcurrencyLimiter) (Metrics.mk 1 0 1 0 0))
    (by norm_num [RateLimiter.acquireCtx,
      TokenBucket.acquire, TokenBucket.refillAt, TokenBucket.consume])
    (by norm_num [ThrottledClient.request, RateLimiter.acquireCtx,
      TokenBucket.acquire,
      TokenBucket.refillAt, TokenBucket.consume, ConcurrencyLimiter.init,
      ConcurrencyLimiter.aenter, ConcurrencyLimiter.aexit, requestCore,
      Metrics.initZero])

/-- A subset of the two critical tasks is the whole set exactly when both
critical tasks belong to it. -/
lemma subset_criticas_eq_iff :
    ∀ cc : Finset Endpoint, cc ⊆ tareas_criticas →
      (cc = tareas_criticas ↔
        Endpoint.productos ∈ cc ∧ Endpoint.perfil ∈ cc) := by
  decide

/-- Once `tiempo_dashboard_parcial` holds a value, no later settlement
overwrites it: the assignment is guarded by `is None`. -/
lemma pasoPrioridad_tiempo_some {α : Type} (inicio : ℚ)
    (st : EstadoPrioridad α) (e : EventoP α) (v : ℚ)
    (h : st.tiempo_dashboard_parcial = some v) :
    (pasoPrioridad inicio st e).tiempo_dashboard_parcial = some v := by
  rcases e with ⟨ep, res, t⟩
  cases res with
  | error msg => simpa [pasoPrioridad] using h
  | ok d =>
    by_cases hc : ep ∈ tareas_criticas
    · simp [pasoPrioridad, hc, h]
    · simpa [pasoPrioridad, hc] using h

lemma correrPrioridad_tiempo_some {α : Type} (inicio v : ℚ) :
    ∀ (evs : List (EventoP α)) (st : EstadoPrioridad α),
      st.tiempo_dashboard_parcial = some v →
      (correrPrioridad inicio evs st).tiempo_dashboard_parcial = some v := by
  intro evs
  induction evs with
  | nil => intro st h; exact h
  | cons e evs ih =>
    intro st h
    exact ih _ (pasoPrioridad_tiempo_some inicio st e v h)

lemma settledOk_cons {α : Type} (e : EventoP α) (evs : List (EventoP α))
    (x : Endpoint) :
    settledOk (e :: evs) x ↔
      (e.endpoint = x ∧ esOk e.resultado = true) ∨ settledOk evs x := by
  simp [settledOk, List.exists_mem_cons_iff]

/-- Invariant of the priority drain: starting from a state whose
`criticas_completadas` is a subset of the critical pair and whose
timestamp is set exactly when that set is full, the final timestamp is set
exactly when each critical task is either already recorded or settles
successfully in the remaining schedule. -/
lemma correrPrioridad_tiempo_iff {α : Type} (inicio : ℚ) :
    ∀ (evs : List (EventoP α)) (st : EstadoPrioridad α),
      st.criticas_completadas ⊆ tareas_criticas →
      (st.tiempo_dashboard_parcial.isSome ↔
        st.criticas_completadas = tareas_criticas) →
      ((correrPrioridad inicio evs st).tiempo_dashboard_parcial.isSome ↔
        ((Endpoint.productos ∈ st.criticas_completadas ∨
            settledOk evs .productos) ∧
         (Endpoint.perfil ∈ st.criticas_completadas ∨
            settledOk evs .perfil))) := by
  intro evs
  induction evs with
  | nil =>
    intro st hsub hiff
    have h := subset_criticas_eq_iff st.criticas_completadas hsub
    simp only [correrPrioridad, List.foldl_nil]
    rw [hiff, h]
    simp [settledOk]
  | cons e evs ih =>
    intro st hsub hiff
    rcases e with ⟨ep, res, t⟩
    have hfold :
        correrPrioridad inicio (⟨ep, res, t⟩ :: evs) st
          = correrPrioridad inicio evs (pasoPrioridad inicio st ⟨ep, res, t⟩) := by
      simp [correrPrioridad]
    rw [hfold]
    cases res with
    | error msg =>
      have hstep :
          pasoPrioridad inicio st ⟨ep, .error msg, t⟩
            = { st with
                orden_llegada := st.orden_llegada ++ [ep]
                errores := st.errores ++ [(ep, msg)] } := rfl
      rw [hstep]
      have h := ih
        ({ st with
            orden_llegada := st.orden_llegada ++ [ep]
            errores := st.errores ++ [(ep, msg)] })
        hsub hiff
      rw [h]
      simp [settledOk_cons, esOk]
    | ok d =>
      by_cases hc : ep ∈ tareas_criticas
      · have hstep :
            pasoPrioridad inicio st ⟨ep, .ok d, t⟩
              = { st with
                  orden_llegada := st.orden_llegada ++ [ep]
                  datos := Function.update st.datos ep (some d)
                  criticas_completadas := insert ep st.criticas_completadas
                  tiempo_dashboard_parcial :=
                    if insert ep st.criticas_completadas = tareas_criticas ∧
                        st.tiempo_dashboard_parcial = none then
                      some (t - inicio)
                    else st.tiempo_dashboard_parcial } := by
          simp [pasoPrioridad, hc]
        rw [hstep]
        have hsub1 : insert ep st.criticas_completadas ⊆ tareas_criticas :=
          Finset.insert_subset_iff.mpr ⟨hc, hsub⟩
        have hiff1 :
            (if insert ep st.criticas_completadas = tareas_criticas ∧
                st.tiempo_dashboard_parcial = none then
              some (t - inicio)
            else st.tiempo_dashboard_parcial).isSome ↔
              insert ep st.criticas_completadas = tareas_criticas := by
          by_cases hq : insert ep st.criticas_completadas = tareas_criticas
          · by_cases ht : st.tiempo_dashboard_parcial = none
            · rw [if_pos ⟨hq, ht⟩]
              simp [hq]
            · rw [if_neg (fun hpair => ht hpair.2)]
              exact iff_of_true (Option.isSome_iff_ne_none.mpr ht) hq
          · have hins : st.criticas_completadas ≠ tareas_criticas := by
              intro hcc
              exact hq (by rw [hcc]; exact Finset.insert_eq_self.mpr (hcc ▸ hc))
            rw [if_neg (fun hpair => hq hpair.1), hiff]
            exact iff_of_false hins hq
        have h := ih
          ({ st with
              orden_llegada := st.orden_llegada ++ [ep]
              datos := Function.update st.datos ep (some d)
              criticas_completadas := insert ep st.criticas_completadas
              tiempo_dashboard_parcial :=
                if insert ep st.criticas_completadas = tareas_criticas ∧
                    st.tiempo_dashboard_parcial = none then
                  some (t - inicio)
                else st.tiempo_dashboard_parcial })
          hsub1 hiff1
        rw [h]
        simp only [settledOk_cons, esOk, Finset.mem_insert]
        constructor
        · rintro ⟨h1, h2⟩
          refine ⟨?_, ?_⟩
          · rcases h1 with (h1 | h1) | h1
            · exact Or.inr (Or.inl ⟨h1.symm, trivial⟩)
            · exact Or.inl h1
            · exact Or.inr (Or.inr h1)
          · rcases h2 with (h2 | h2) | h2
            · exact Or.inr (Or.inl ⟨h2.symm, trivial⟩)
            · exact Or.inl h2
            · exact Or.inr (Or.inr h2)
        · rintro ⟨h1, h2⟩
          refine ⟨?_, ?_⟩
          · rcases h1 with h1 | ⟨h1, -⟩ | h1
            · exact Or.inl (Or.inr h1)
            · exact Or.inl (Or.inl h1.symm)
            · exact Or.inr h1
          · rcases h2 with h2 | ⟨h2, -⟩ | h2
            · exact Or.inl (Or.inr h2)
            · exact Or.inl (Or.inl h2.symm)
            · exact Or.inr h2
      · have hstep :
            pasoPrioridad inicio st ⟨ep, .ok d, t⟩
              = { st with
                  orden_llegada := st.orden_llegada ++ [ep]
                  datos := Function.update st.datos ep (some d) } := by
          simp [pasoPrioridad, hc]
        rw [hstep]
        have hne1 : ep ≠ Endpoint.productos := by
          intro h
          exact hc (h ▸ (by decide : Endpoint.productos ∈ tareas_criticas))
        have hne2 : ep ≠ Endpoint.perfil := by
          intro h
          exact hc (h ▸ (by decide : Endpoint.perfil ∈ tareas_criticas))
        have h := ih
          ({ st with
              orden_llegada := st.orden_llegada ++ [ep]
              datos := Function.update st.datos ep (some d) })
          hsub hiff
        rw [h]
        simp [settledOk_cons, esOk, hne1, hne2]

/-- C1 counterexample: a run in which the critical task `productos` fails
(here with a server error) and the three remaining tasks — including the
critical `perfil` — succeed.  Every task, critical ones included, reaches
a terminal state (the arrival order lists all four), yet
`tiempo_dashboard_parcial` is never assigned: the code adds a critical
task to `criticas_completadas` only on success, so the claimed
"assigned iff every Critical operation reached a terminal state,
including Failed" is false on the code. -/
theorem c1_counterexample :
    (cargar_con_prioridad 0
        ([⟨.productos, .error "Error del servidor: 500", 1⟩,
          ⟨.perfil, .ok 0, 2⟩,
          ⟨.categorias, .ok 0, 3⟩,
          ⟨.notificaciones, .ok 0, 4⟩] : List (EventoP ℕ))).orden_llegada
      = [.productos, .perfil, .categorias, .notificaciones] ∧
    (cargar_con_prioridad 0
        ([⟨.productos, .error "Error del servidor: 500", 1⟩,
          ⟨.perfil, .ok 0, 2⟩,
          ⟨.categorias, .ok 0, 3⟩,
          ⟨.notificaciones, .ok 0, 4⟩] : List (EventoP ℕ))).tiempo_dashboard_parcial
      = none ∧
    (cargar_con_prioridad 0
        ([⟨.productos, .error "Error del servidor: 500", 1⟩,
          ⟨.perfil, .ok 0, 2⟩,
          ⟨.categorias, .ok 0, 3⟩,
          ⟨.notificaciones, .ok 0, 4⟩] : List (EventoP ℕ))).criticas_completas
      = false := by
  refine ⟨rfl, rfl, rfl⟩

/-- C1 amended: in the priority-tiered run the critical-ready timestamp is
assigned at most once per run — once it holds a value after processing any
prefix of the schedule, the rest of the run leaves that value unchanged —
and it is assigned if and only if both Critical operations (`productos`
and `perfil`) settled successfully; a run in which a Critical operation
failed ends with the timestamp unassigned even though every operation
reached a terminal state. -/
theorem c1_critical_ready_once_iff_both_succeed :
    ∀ {α : Type} (inicio : ℚ) (evs : List (EventoP α)),
      ((cargar_con_prioridad inicio evs).tiempo_dashboard_parcial.isSome ↔
        (settledOk evs .productos ∧ settledOk evs .perfil)) ∧
      (∀ (pre post : List (EventoP α)) (v : ℚ), evs = pre ++ post →
        (correrPrioridad inicio pre
            (EstadoPrioridad.inicial α)).tiempo_dashboard_parcial = some v →
        (cargar_con_prioridad inicio evs).tiempo_dashboard_parcial = some v) := by
  intro α inicio evs
  constructor
  · have h := correrPrioridad_tiempo_iff inicio evs (EstadoPrioridad.inicial α)
      (by simp [EstadoPrioridad.inicial])
      (by simp [EstadoPrioridad.inicial]; decide)
    simpa [cargar_con_prioridad, EstadoPrioridad.inicial] using h
  · intro pre post v hsplit hpre
    show (correrPrioridad inicio evs
      (EstadoPrioridad.inicial α)).tiempo_dashboard_parcial = some v
    rw [hsplit, correrPrioridad, List.foldl_append]
    exact correrPrioridad_tiempo_some inicio v post _ hpre

/-- Closed instance of C1 (amended), discharging its hypotheses: after a
prefix in which both critical tasks succeed the timestamp is `2`, and the
remaining secondary settlement leaves it at `2`. -/
theorem c1_witness :
    (cargar_con_prioridad 0
        ([⟨.productos, .ok 0, 1⟩, ⟨.perfil, .ok 0, 2⟩,
          ⟨.categorias, .ok 0, 3⟩] : List (EventoP ℕ))).tiempo_dashboard_parcial
      = some (2 - 0) :=
  (c1_critical_ready_once_iff_both_succeed 0
      ([⟨.productos, .ok 0, 1⟩, ⟨.perfil, .ok 0, 2⟩,
        ⟨.categorias, .ok 0, 3⟩] : List (EventoP ℕ))).2
    [⟨.productos, .ok 0, 1⟩, ⟨.perfil, .ok 0, 2⟩] [⟨.categorias, .ok 0, 3⟩]
    (2 - 0) rfl rfl

/-- Processing a batch with no fatal outcome never sets the cascade flag. -/
lemma procesarDone_flag_of_no_fatal {α : Type} :
    ∀ (evs : List (Endpoint × OutcomeC α)) (pend : List Endpoint)
      (st : EstadoDashboard α),
      (∀ ev ∈ evs, esFatal ev.2 = false) →
      (procesarDone evs pend st).canceladas_por_auth
        = st.canceladas_por_auth := by
  intro evs
  induction evs with
  | nil => intro pend st _; rfl
  | cons ev resto ih =>
    intro pend st h
    rcases ev with ⟨ep, out⟩
    have hrest : ∀ ev ∈ resto, esFatal ev.2 = false :=
      fun e he => h e (List.mem_cons_of_mem _ he)
    cases out with
    | ok d => exact ih pend _ hrest
    | noAutorizado msg =>
      have := h (ep, .noAutorizado msg) (List.mem_cons_self _ _)
      simp [esFatal] at this
    | cancelledSignal => exact ih pend _ hrest
    | otherExc msg => exact ih pend _ hrest

/-- Processing a batch with no fatal outcome and no surfacing cancellation
signal only appends records with `cancelada = False`. -/
lemma procesarDone_err_of_no_fatal {α : Type} :
    ∀ (evs : List (Endpoint × OutcomeC α)) (pend : List Endpoint)
      (st : EstadoDashboard α),
      (∀ ev ∈ evs, esFatal ev.2 = false ∧ ev.2 ≠ OutcomeC.cancelledSignal) →
      ∀ r ∈ (procesarDone evs pend st).errores,
        r ∈ st.errores ∨ r.cancelada = false := by
  intro evs
  induction evs with
  | nil => intro pend st _ r hr; exact Or.inl hr
  | cons ev resto ih =>
    intro pend st h
    rcases ev with ⟨ep, out⟩
    have hrest : ∀ ev ∈ resto, esFatal ev.2 = false ∧
        ev.2 ≠ OutcomeC.cancelledSignal :=
      fun e he => h e (List.mem_cons_of_mem _ he)
    cases out with
    | ok d => exact ih pend _ hrest
    | noAutorizado msg =>
      have := (h (ep, .noAutorizado msg) (List.mem_cons_self _ _)).1
      simp [esFatal] at this
    | cancelledSignal =>
      have := (h (ep, .cancelledSignal) (List.mem_cons_self _ _)).2
      simp at this
    | otherExc msg =>
      intro r hr
      rcases ih pend _ hrest r hr with hmem | hfalse
      · rcases List.mem_append.mp hmem with hmem | hone
        · exact Or.inl hmem
        · right
          have : r = ⟨ep, msg, false⟩ := by simpa using hone
          rw [this]
      · exact Or.inr hfalse

/-- One non-stopping round of the drain loop. -/
lemma cargarDashboard_cons_step {α : Type}
    (batch : List (Endpoint × OutcomeC α))
    (L : List (List (Endpoint × OutcomeC α))) (pend : List Endpoint)
    (st : EstadoDashboard α)
    (h : (procesarDone batch
        (pend.filter (fun p => !(batch.any (fun ev => ev.1 = p))))
        st).canceladas_por_auth = false) :
    cargarDashboard (batch :: L) pend st
      = cargarDashboard L
          (pend.filter (fun p => !(batch.any (fun ev => ev.1 = p))))
          (procesarDone batch
            (pend.filter (fun p => !(batch.any (fun ev => ev.1 = p)))) st) := by
  simp [cargarDashboard, h]

/-- One stopping round of the drain loop: when the batch set the flag the
outer loop breaks with the state of that round. -/
lemma cargarDashboard_cons_stop {α : Type}
    (batch : List (Endpoint × OutcomeC α))
    (L : List (List (Endpoint × OutcomeC α))) (pend : List Endpoint)
    (st : EstadoDashboard α)
    (h : (procesarDone batch
        (pend.filter (fun p => !(batch.any (fun ev => ev.1 = p))))
        st).canceladas_por_auth = true) :
    cargarDashboard (batch :: L) pend st
      = procesarDone batch
          (pend.filter (fun p => !(batch.any (fun ev => ev.1 = p)))) st := by
  simp [cargarDashboard, h]

/-- A fatal-free prefix of the schedule is drained without stopping: the
run on the whole schedule continues from the state and pending set the
prefix leaves behind, and the flag is still down. -/
lemma cargarDashboard_append_of_no_fatal {α : Type} :
    ∀ (pre rest : List (List (Endpoint × OutcomeC α))) (pend : List Endpoint)
      (st : EstadoDashboard α),
      st.canceladas_por_auth = false →
      (∀ batch ∈ pre, ∀ ev ∈ batch, esFatal ev.2 = false) →
      cargarDashboard (pre ++ rest) pend st
          = cargarDashboard rest (pendAfterBatches pre pend)
              (cargarDashboard pre pend st)
        ∧ (cargarDashboard pre pend st).canceladas_por_auth = false := by
  intro pre
  induction pre with
  | nil => intro rest pend st hst _; exact ⟨rfl, hst⟩
  | cons batch pre ih =>
    intro rest pend st hst hb
    have hbatch : ∀ ev ∈ batch, esFatal ev.2 = false :=
      hb batch (List.mem_cons_self _ _)
    have hpre : ∀ b ∈ pre, ∀ ev ∈ b, esFatal ev.2 = false :=
      fun b hbm => hb b (List.mem_cons_of_mem _ hbm)
    have hflag : (procesarDone batch
        (pend.filter (fun p => !(batch.any (fun ev => ev.1 = p))))
        st).canceladas_por_auth = false := by
      rw [procesarDone_flag_of_no_fatal batch _ st hbatch]
      exact hst
    obtain ⟨ih1, ih2⟩ := ih rest
      (pend.filter (fun p => !(batch.any (fun ev => ev.1 = p))))
      (procesarDone batch
        (pend.filter (fun p => !(batch.any (fun ev => ev.1 = p)))) st)
      hflag hpre
    constructor
    · rw [show (batch :: pre) ++ rest = batch :: (pre ++ rest) from rfl,
        cargarDashboard_cons_step batch (pre ++ rest) pend st hflag, ih1,
        cargarDashboard_cons_step batch pre pend st hflag]
      rfl
    · rw [cargarDashboard_cons_step batch pre pend st hflag]
      exact ih2

/-- A schedule with no fatal outcome and no cancellation signal is drained
to the end with the flag down and only `cancelada = False` records. -/
lemma cargarDashboard_no_fatal {α : Type} :
    ∀ (sched : List (List (Endpoint × OutcomeC α))) (pend : List Endpoint)
      (st : EstadoDashboard α),
      st.canceladas_por_auth = false →
      (∀ batch ∈ sched, ∀ ev ∈ batch,
        esFatal ev.2 = false ∧ ev.2 ≠ OutcomeC.cancelledSignal) →
      (cargarDashboard sched pend st).canceladas_por_auth = false ∧
      ∀ r ∈ (cargarDashboard sched pend st).errores,
        r ∈ st.errores ∨ r.cancelada = false := by
  intro sched
  induction sched with
  | nil => intro pend st hst _; exact ⟨hst, fun r hr => Or.inl hr⟩
  | cons batch sched ih =>
    intro pend st hst hb
    have hbatch := hb batch (List.mem_cons_self _ _)
    have hrest : ∀ b ∈ sched, ∀ ev ∈ b,
        esFatal ev.2 = false ∧ ev.2 ≠ OutcomeC.cancelledSignal :=
      fun b hbm => hb b (List.mem_cons_of_mem _ hbm)
    have hflag : (procesarDone batch
        (pend.filter (fun p => !(batch.any (fun ev => ev.1 = p))))
        st).canceladas_por_auth = false := by
      rw [procesarDone_flag_of_no_fatal batch _ st
        (fun ev he => (hbatch ev he).1)]
      exact hst
    rw [cargarDashboard_cons_step batch sched pend st hflag]
    obtain ⟨ih1, ih2⟩ := ih
      (pend.filter (fun p => !(batch.any (fun ev => ev.1 = p))))
      (procesarDone batch
        (pend.filter (fun p => !(batch.any (fun ev => ev.1 = p)))) st)
      hflag hrest
    refine ⟨ih1, fun r hr => ?_⟩
    rcases ih2 r hr with hmem | hfalse
    · exact procesarDone_err_of_no_fatal batch _ st hbatch r hmem
    · exact Or.inr hfalse

/-- A fatal-free run of the inner `for` loop distributes over append. -/
lemma procesarDone_append_of_no_fatal {α : Type} :
    ∀ (evs1 evs2 : List (Endpoint × OutcomeC α)) (pend : List Endpoint)
      (st : EstadoDashboard α),
      (∀ ev ∈ evs1, esFatal ev.2 = false) →
      procesarDone (evs1 ++ evs2) pend st
        = procesarDone evs2 pend (procesarDone evs1 pend st) := by
  intro evs1
  induction evs1 with
  | nil => intro evs2 pend st _; rfl
  | cons ev resto ih =>
    intro evs2 pend st h
    rcases ev with ⟨ep, out⟩
    have hrest : ∀ ev ∈ resto, esFatal ev.2 = false :=
      fun e he => h e (List.mem_cons_of_mem _ he)
    cases out with
    | ok d => exact ih evs2 pend _ hrest
    | noAutorizado msg =>
      have := h (ep, .noAutorizado msg) (List.mem_cons_self _ _)
      simp [esFatal] at this
    | cancelledSignal => exact ih evs2 pend _ hrest
    | otherExc msg => exact ih evs2 pend _ hrest

/-- Processing a settled fatal outcome with tasks still pending: the fatal
task is recorded with `cancelada = False`, the flag is raised, one
`cancelada = True` record is appended per pending task, and the loop stops
(the remaining events are not processed). -/
lemma procesarDone_fatal {α : Type} (epF : Endpoint) (msg : String)
    (b2 : List (Endpoint × OutcomeC α)) (pend : List Endpoint)
    (st : EstadoDashboard α) (h : pend ≠ []) :
    procesarDone ((epF, OutcomeC.noAutorizado msg) :: b2) pend st
      = { st with
          canceladas_por_auth := true
          errores := (st.errores ++ [⟨epF, msg, false⟩]) ++ pend.map
            (fun p => ⟨p, "Cancelada por falta de autenticacion", true⟩) } := by
  simp [procesarDone, h]

/-- C2: in the cascade run, as soon as a settled task matches the fatal
predicate (`NoAutorizado`) with tasks still pending, every still-pending
task is cancelled and reported with `cancelada = True`, and draining stops
immediately — the final report is exactly the state accumulated before the
fatal event, plus the fatal record, plus one cancellation record per
pending task; the rest of the schedule is never processed.  Outcomes that
do not match the fatal predicate never trigger cancellation of siblings:
a schedule with no fatal settlement ends with the flag down and only
`cancelada = False` records.  `cancel_remaining` requests cancellation of
exactly the not-yet-done tasks and returns their count, and a surfacing
cancellation signal is converted into a `cancelada = True` record and the
drain continues — it never escapes to the caller. -/
theorem c2_fatal_cascade_cancels_pending :
    (∀ ts : List TaskHandle,
      (cancel_remaining ts).1
          = ts.map (fun t => if t.isDone then t
              else { t with cancelRequested := true }) ∧
      (cancel_remaining ts).2 = (ts.filter (fun t => !t.isDone)).length) ∧
    (∀ (α : Type) (schedule : List (List (Endpoint × OutcomeC α))),
      (∀ batch ∈ schedule, ∀ ev ∈ batch,
        esFatal ev.2 = false ∧ ev.2 ≠ OutcomeC.cancelledSignal) →
      (cargar_dashboard_con_cancelacion schedule).canceladas_por_auth = false ∧
      ∀ r ∈ (cargar_dashboard_con_cancelacion schedule).errores,
        r.cancelada = false) ∧
    (∀ (α : Type) (pre post : List (List (Endpoint × OutcomeC α)))
        (b1 b2 : List (Endpoint × OutcomeC α)) (epF : Endpoint) (msg : String),
      (∀ batch ∈ pre, ∀ ev ∈ batch, esFatal ev.2 = false) →
      (∀ ev ∈ b1, esFatal ev.2 = false) →
      (pendAfterBatches pre pendientesDashboard).filter
          (fun p => !((b1 ++ (epF, OutcomeC.noAutorizado msg) :: b2).any
            (fun ev => ev.1 = p))) ≠ [] →
      (cargar_dashboard_con_cancelacion
          (pre ++ (b1 ++ (epF, OutcomeC.noAutorizado msg) :: b2) :: post)
        = { procesarDone b1
              ((pendAfterBatches pre pendientesDashboard).filter
                (fun p => !((b1 ++ (epF, OutcomeC.noAutorizado msg) :: b2).any
                  (fun ev => ev.1 = p))))
              (cargarDashboard pre pendientesDashboard
                (EstadoDashboard.inicial α)) with
            canceladas_por_auth := true
            errores := ((procesarDone b1
              ((pendAfterBatches pre pendientesDashboard).filter
                (fun p => !((b1 ++ (epF, OutcomeC.noAutorizado msg) :: b2).any
                  (fun ev => ev.1 = p))))
              (cargarDashboard pre pendientesDashboard
                (EstadoDashboard.inicial α))).errores
                ++ [⟨epF, msg, false⟩])
              ++ ((pendAfterBatches pre pendientesDashboard).filter
                (fun p => !((b1 ++ (epF, OutcomeC.noAutorizado msg) :: b2).any
                  (fun ev => ev.1 = p)))).map
                (fun p =>
                  ⟨p, "Cancelada por falta de autenticacion", true⟩) }) ∧
      (cargar_dashboard_con_cancelacion
          (pre ++ (b1 ++ (epF, OutcomeC.noAutorizado msg) :: b2) :: post)
        ).canceladas_por_auth = true ∧
      ∀ p ∈ (pendAfterBatches pre pendientesDashboard).filter
          (fun p => !((b1 ++ (epF, OutcomeC.noAutorizado msg) :: b2).any
            (fun ev => ev.1 = p))),
        (⟨p, "Cancelada por falta de autenticacion", true⟩ : ErrRecord)
          ∈ (cargar_dashboard_con_cancelacion
              (pre ++ (b1 ++ (epF, OutcomeC.noAutorizado msg) :: b2) :: post)
            ).errores) ∧
    (∀ (α : Type) (ep : Endpoint) (resto : List (Endpoint × OutcomeC α))
        (pend : List Endpoint) (st : EstadoDashboard α),
      procesarDone ((ep, OutcomeC.cancelledSignal) :: resto) pend st
        = procesarDone resto pend
            { st with errores := st.errores ++ [⟨ep, "Tarea cancelada", true⟩] }) := by
  refine ⟨?_, ?_, ?_, ?_⟩
  · intro ts
    induction ts with
    | nil => exact ⟨rfl, rfl⟩
    | cons t ts ih =>
      obtain ⟨ih1, ih2⟩ := ih
      by_cases hd : t.isDone
      · constructor
        · simp [cancel_remaining, hd, ih1]
        · simp [cancel_remaining, hd, ih2, List.filter_cons]
      · constructor
        · simp [cancel_remaining, hd, ih1]
        · simp [cancel_remaining, hd, ih2, List.filter_cons]
  · intro α schedule hs
    obtain ⟨h1, h2⟩ := cargarDashboard_no_fatal schedule pendientesDashboard
      (EstadoDashboard.inicial α) rfl hs
    refine ⟨h1, fun r hr => ?_⟩
    rcases h2 r hr with hmem | hfalse
    · simp [EstadoDashboard.inicial] at hmem
    · exact hfalse
  · intro α pre post b1 b2 epF msg hpre hb1 hpend
    obtain ⟨hA, hflag⟩ := cargarDashboard_append_of_no_fatal pre
      ((b1 ++ (epF, OutcomeC.noAutorizado msg) :: b2) :: post)
      pendientesDashboard (EstadoDashboard.inicial α) rfl hpre
    have hflagB1 : (procesarDone b1
        ((pendAfterBatches pre pendientesDashboard).filter
          (fun p => !((b1 ++ (epF, OutcomeC.noAutorizado msg) :: b2).any
            (fun ev => ev.1 = p))))
        (cargarDashboard pre pendientesDashboard
          (EstadoDashboard.inicial α))).canceladas_por_auth = false := by
      rw [procesarDone_flag_of_no_fatal b1 _ _ hb1]
      exact hflag
    have hsplit := procesarDone_append_of_no_fatal b1
      ((epF, OutcomeC.noAutorizado msg) :: b2)
      ((pendAfterBatches pre pendientesDashboard).filter
        (fun p => !((b1 ++ (epF, OutcomeC.noAutorizado msg) :: b2).any
          (fun ev => ev.1 = p))))
      (cargarDashboard pre pendientesDashboard (EstadoDashboard.inicial α))
      hb1
    have hfatal := procesarDone_fatal epF msg b2
      ((pendAfterBatches pre pendientesDashboard).filter
        (fun p => !((b1 ++ (epF, OutcomeC.noAutorizado msg) :: b2).any
          (fun ev => ev.1 = p))))
      (procesarDone b1
        ((pendAfterBatches pre pendientesDashboard).filter
          (fun p => !((b1 ++ (epF, OutcomeC.noAutorizado msg) :: b2).any
            (fun ev => ev.1 = p))))
        (cargarDashboard pre pendientesDashboard (EstadoDashboard.inicial α)))
      hpend
    have hstop : cargar_dashboard_con_cancelacion
        (pre ++ (b1 ++ (epF, OutcomeC.noAutorizado msg) :: b2) :: post)
        = procesarDone (b1 ++ (epF, OutcomeC.noAutorizado msg) :: b2)
            ((pendAfterBatches pre pendientesDashboard).filter
              (fun p => !((b1 ++ (epF, OutcomeC.noAutorizado msg) :: b2).any
                (fun ev => ev.1 = p))))
            (cargarDashboard pre pendientesDashboard
              (EstadoDashboard.inicial α)) := by
      rw [cargar_dashboard_con_cancelacion, hA,
        cargarDashboard_cons_stop _ post _ _ (by rw [hsplit, hfatal])]
    have hmain : cargar_dashboard_con_cancelacion
        (pre ++ (b1 ++ (epF, OutcomeC.noAutorizado msg) :: b2) :: post)
        = { procesarDone b1
              ((pendAfterBatches pre pendientesDashboard).filter
                (fun p => !((b1 ++ (epF, OutcomeC.noAutorizado msg) :: b2).any
                  (fun ev => ev.1 = p))))
              (cargarDashboard pre pendientesDashboard
                (EstadoDashboard.inicial α)) with
            canceladas_por_auth := true
            errores := ((procesarDone b1
              ((pendAfterBatches pre pendientesDashboard).filter
                (fun p => !((b1 ++ (epF, OutcomeC.noAutorizado msg) :: b2).any
                  (fun ev => ev.1 = p))))
              (cargarDashboard pre pendientesDashboard
                (EstadoDashboard.inicial α))).errores
                ++ [⟨epF, msg, false⟩])
              ++ ((pendAfterBatches pre pendientesDashboard).filter
                (fun p => !((b1 ++ (epF, OutcomeC.noAutorizado msg) :: b2).any
                  (fun ev => ev.1 = p)))).map
                (fun p =>
                  ⟨p, "Cancelada por falta de autenticacion", true⟩) } := by
      rw [hstop, hsplit, hfatal]
    refine ⟨hmain, by rw [hmain], fun p hp => ?_⟩
    rw [hmain]
    simp only [List.mem_append]
    right
    exact List.mem_map_of_mem _ hp
  · intro α ep resto pend st
    rfl

/-- Closed instance of C2, discharging its hypotheses: the single batch
`[perfil ↦ NoAutorizado]` settles first with `productos` and `categorias`
still pending, the flag is raised and both pending tasks are reported
`cancelada = True`; and a fatal-free schedule raises no flag. -/
theorem c2_witness :
    ((cargar_dashboard_con_cancelacion
        ([[(Endpoint.perfil, OutcomeC.noAutorizado "No autorizado: 401")]] :
          List (List (Endpoint × OutcomeC ℕ)))).canceladas_por_auth = true ∧
      (⟨Endpoint.productos, "Cancelada por falta de autenticacion", true⟩ :
          ErrRecord)
        ∈ (cargar_dashboard_con_cancelacion
            ([[(Endpoint.perfil, OutcomeC.noAutorizado "No autorizado: 401")]] :
              List (List (Endpoint × OutcomeC ℕ)))).errores) ∧
    (cargar_dashboard_con_cancelacion
        ([[(Endpoint.productos, OutcomeC.ok 7)],
          [(Endpoint.categorias, OutcomeC.otherExc "Error del servidor: 500")],
          [(Endpoint.perfil, OutcomeC.ok 1)]] :
          List (List (Endpoint × OutcomeC ℕ)))).canceladas_por_auth = false := by
  have h3 := (c2_fatal_cascade_cancels_pending.2.2.1 ℕ [] []
    [] [] Endpoint.perfil "No autorizado: 401"
    (by intro b hb; simp at hb) (by intro ev he; simp at he)
    (by decide))
  have h2 := (c2_fatal_cascade_cancels_pending.2.1 ℕ
    ([[(Endpoint.productos, OutcomeC.ok 7)],
      [(Endpoint.categorias, OutcomeC.otherExc "Error del servidor: 500")],
      [(Endpoint.perfil, OutcomeC.ok 1)]])
    (by
      intro b hb ev he
      simp only [List.mem_cons, List.not_mem_nil, or_false] at hb
      rcases hb with hb | hb | hb <;> subst hb <;> simp_all [esFatal]))
  refine ⟨⟨h3.2.1, ?_⟩, h2.1⟩
  exact h3.2.2 Endpoint.productos (by decide)

end FEND101
